import Mathlib

/-
Verification development for the sales/COGS analytics dashboard
(app.py, pdf_exporter.py and the SalesDataAnalyzer aggregation engine).

A shallow embedding: one transaction row of the canonical dataset is a
record of its columns (Menu, Menu Category, Branch, Sales Date, hour, Qty,
Price, Total, COGS Total, COGS Total (%), Margin); a dataset is a list of
rows in file order. Numbers are modelled by the exact rationals.

Two float behaviours of the numpy/pandas runtime matter to the theorems
and are modelled explicitly (warnings are suppressed at module import in
both source files, so neither raises):
- a zero denominator in numpy scalar division produces NaN, not an
  exception: modelled by Option, with none standing for the NaN outcome;
- the mean of an empty pandas series is NaN: modelled the same way.

Calendar dates are modelled by a day index (Nat), with day index mod 7 as
the day of week (0 = Monday) and day index div 7 as the week key.
-/

structure Row where
  menu : String
  menuCategory : String
  branch : String
  salesDate : Nat
  hour : Nat
  qty : ℚ
  price : ℚ
  total : ℚ
  cogsTotal : ℚ
  cogsPct : ℚ
  margin : ℚ
deriving DecidableEq

/-- The filter parameters of §4.2 / app.py lines 92-114: an inclusive date
range, the multiselect category set and the selected branch. -/
structure FilterSpec where
  startDate : Nat
  endDate : Nat
  categories : List String
  branch : String
deriving DecidableEq

/-- One recommendation record: the Python dict literals at
pdf_exporter.py lines 519-546 and the analyzer rule engine all carry
exactly the keys title, description and potential_saving, all strings. -/
structure Recommendation where
  title : String
  description : String
  potential_saving : String
deriving DecidableEq

/-- The columns of one row of comprehensive_menu_analysis (§4.3): the
grouped per-menu aggregates consumed by rankings and the recommendation
rules. -/
structure MenuStats where
  menu : String
  totalQty : ℚ
  totalRevenue : ℚ
  totalMargin : ℚ
  avgMargin : ℚ
  marginPct : ℚ
  avgCogsPct : ℚ
deriving DecidableEq

/-- Boolean list membership. -/
def memB {α : Type} [BEq α] (x : α) : List α → Bool
  | [] => false
  | y :: ys => (y == x) || memB x ys

def uniqueAux {α : Type} [BEq α] : List α → List α → List α
  | [], _ => []
  | x :: xs, seen =>
    if memB x seen then uniqueAux xs seen else x :: uniqueAux xs (x :: seen)

/-- Distinct values in first-seen order (pandas Series.unique / the group
keys before any sorting). -/
def uniqueKeys {α : Type} [BEq α] (l : List α) : List α := uniqueAux l []

def insertBy {α : Type} (le : α → α → Bool) (x : α) : List α → List α
  | [] => [x]
  | y :: ys => if le x y then x :: y :: ys else y :: insertBy le x ys

/-- Insertion sort. Every comparator handed to it in this file is a total
order on the keys it meets (ties on the primary metric are broken by the
unique menu name), so the result is the unique sorted arrangement and
agrees with the stable library sort of the source. -/
def sortBy {α : Type} (le : α → α → Bool) : List α → List α
  | [] => []
  | x :: xs => insertBy le x (sortBy le xs)

def charListLe : List Char → List Char → Bool
  | [], _ => true
  | _ :: _, [] => false
  | a :: as, b :: bs => if a < b then true else if a = b then charListLe as bs else false

/-- Lexicographic string order, as Python compares strings. -/
def strLe (a b : String) : Bool := charListLe a.toList b.toList

def natLe (a b : Nat) : Bool := decide (a ≤ b)

/-- Division with the zero-denominator guard resolving to the sentinel 0
(§4.3: guard divide-by-zero to 0). -/
def safeDiv (a b : ℚ) : ℚ := if b = 0 then 0 else a / b

/-- numpy scalar division: none models the NaN outcome of a zero
denominator (no exception is raised, warnings being suppressed). -/
def npDiv (a b : ℚ) : Option ℚ := if b = 0 then none else some (a / b)

/-- The comparison x > c under numpy NaN semantics: NaN > c is False. -/
def nanGT (x : Option ℚ) (c : ℚ) : Bool :=
  match x with
  | none => false
  | some v => decide (c < v)

/-- pandas Series.mean: NaN (none) for an empty series. -/
def seriesMean (xs : List ℚ) : Option ℚ :=
  match xs with
  | [] => none
  | _ :: _ => some (xs.sum / (xs.length : ℚ))

def nthQ : List ℚ → Nat → ℚ
  | [], _ => 0
  | x :: _, 0 => x
  | _ :: xs, n + 1 => nthQ xs n

/-- pandas Series.quantile with the default linear interpolation: on the
sorted values v with h = (n-1)q, the result is v[floor h] plus the
fractional part of h times (v[ceil h] - v[floor h]). Since h is
non-negative here, ceil h is floor h + 1 exactly when the fractional part
is non-zero, which is how the upper index is taken below. The quantile of
an empty series is NaN and every comparison against it is False; the 0
returned here is never compared against (the filters using it run over the
same empty list). -/
def quantileLinear (xs : List ℚ) (q : ℚ) : ℚ :=
  match sortBy (fun a b => decide (a ≤ b)) xs with
  | [] => 0
  | a :: rest =>
    let h : ℚ := ((rest.length + 1 : ℚ) - 1) * q
    let lo : ℕ := (⌊h⌋).toNat
    let frac : ℚ := h - (lo : ℚ)
    let vlo := nthQ (a :: rest) lo
    let vhi := if frac = 0 then vlo else nthQ (a :: rest) (lo + 1)
    vlo + frac * (vhi - vlo)

/-- Round to the nearest integer, ties to even (the rounding of Python
float formatting). -/
def roundHalfEven (x : ℚ) : ℤ :=
  let f := ⌊x⌋
  let r := x - (f : ℚ)
  if r < 1/2 then f
  else if 1/2 < r then f + 1
  else if f % 2 = 0 then f else f + 1

/-- The Python format {v:,.0f}: rounded to zero decimals. The thousands
separator, pure presentation, is elided. -/
def fmt0f (x : ℚ) : String := toString (roundHalfEven x)

/-- The Python format {v:.1f}: one decimal digit. -/
def fmt1f (x : ℚ) : String :=
  let t := roundHalfEven (10 * x)
  let s := if t < 0 then "-" else ""
  s ++ toString (t.natAbs / 10) ++ "." ++ toString (t.natAbs % 10)

/-- Formatting of a possibly-NaN float: Python prints nan. -/
def optFmt1f (x : Option ℚ) : String :=
  match x with
  | none => "nan"
  | some v => fmt1f v

def hasDigit (s : String) : Bool := s.toList.any (fun c => c.isDigit)

/-- data.Total.sum over the filtered dataset. -/
def sumTotal (d : List Row) : ℚ := (d.map (fun r => r.total)).sum

def sumMargin (d : List Row) : ℚ := (d.map (fun r => r.margin)).sum

def sumCogs (d : List Row) : ℚ := (d.map (fun r => r.cogsTotal)).sum

/-- app.py display_overview lines 199-200: the margin percentage with the
explicit guard, total_margin / total_revenue * 100 if total_revenue > 0
else 0. -/
def display_overview_margin_pct (d : List Row) : ℚ :=
  if 0 < sumTotal d then sumMargin d / sumTotal d * 100 else 0

/-- pdf_exporter.py line 174 (_create_title_page) and lines 205-207
(_create_executive_summary): total_margin / total_revenue * 100 with no
guard; numpy yields NaN (none) when total revenue is 0. -/
def pdf_gross_margin_pct (d : List Row) : Option ℚ :=
  (npDiv (sumMargin d) (sumTotal d)).map (fun v => v * 100)

/-- pdf_exporter.py lines 168 and 208: the mean of the COGS Total (%)
column, NaN (none) on an empty dataset. -/
def pdf_avg_cogs_pct (d : List Row) : Option ℚ :=
  seriesMean (d.map (fun r => r.cogsPct))

/-- Modelled from the spec: the per-menu group of
get_comprehensive_menu_analysis of data_analyzer.py, whose code is not
among the repository files. §4.3: group by menu_name; total quantity,
total revenue, total margin; average margin-per-unit =
sum(margin)/sum(quantity) (guard divide-by-zero to 0); margin_percentage =
sum(margin)/sum(total_revenue)*100 (guard to 0); average cogs_pct. -/
def menu_stats_of (d : List Row) (m : String) : MenuStats :=
  let rows := d.filter (fun r => r.menu == m)
  let qty := (rows.map (fun r => r.qty)).sum
  let rev := (rows.map (fun r => r.total)).sum
  let mar := (rows.map (fun r => r.margin)).sum
  { menu := m
    totalQty := qty
    totalRevenue := rev
    totalMargin := mar
    avgMargin := safeDiv mar qty
    marginPct := safeDiv mar rev * 100
    avgCogsPct := safeDiv ((rows.map (fun r => r.cogsPct)).sum) ((rows.length : ℚ)) }

/-- Modelled from the spec: one aggregate row per distinct menu (§4.3
comprehensive_menu_analysis, the shared basis of the rankings and of the
recommendation rules). -/
def menu_stats (d : List Row) : List MenuStats :=
  (uniqueKeys (d.map (fun r => r.menu))).map (menu_stats_of d)

def revenueDesc (a b : MenuStats) : Bool :=
  decide (b.totalRevenue < a.totalRevenue) ||
    (decide (a.totalRevenue = b.totalRevenue) && strLe a.menu b.menu)

def qtyDesc (a b : MenuStats) : Bool :=
  decide (b.totalQty < a.totalQty) ||
    (decide (a.totalQty = b.totalQty) && strLe a.menu b.menu)

def avgMarginDesc (a b : MenuStats) : Bool :=
  decide (b.avgMargin < a.avgMargin) ||
    (decide (a.avgMargin = b.avgMargin) && strLe a.menu b.menu)

def cogsPctDesc (a b : MenuStats) : Bool :=
  decide (b.avgCogsPct < a.avgCogsPct) ||
    (decide (a.avgCogsPct = b.avgCogsPct) && strLe a.menu b.menu)

def cogsPctAsc (a b : MenuStats) : Bool :=
  decide (a.avgCogsPct < b.avgCogsPct) ||
    (decide (a.avgCogsPct = b.avgCogsPct) && strLe a.menu b.menu)

/-- Modelled from the spec: get_comprehensive_menu_analysis of
data_analyzer.py (code not among the repository files), ordered by total
revenue descending so that head(5) — as pdf_exporter.py line 515 takes —
is the top-5 menus by revenue, the reading the §4.3 concentration rule
states; ties broken by menu name ascending. -/
def get_comprehensive_menu_analysis (d : List Row) : List MenuStats :=
  sortBy revenueDesc (menu_stats d)

/-- Modelled from the spec: §4.3 top_performing — sort descending by
summed quantity, ties by menu name ascending, top n. -/
def get_top_performing_menus (d : List Row) (n : Nat) : List MenuStats :=
  (sortBy qtyDesc (menu_stats d)).take n

/-- Modelled from the spec: §4.3 most_profitable — sort descending by
average margin-per-unit, ties by menu name ascending, top n. -/
def get_most_profitable_menus (d : List Row) (n : Nat) : List MenuStats :=
  (sortBy avgMarginDesc (menu_stats d)).take n

/-- Modelled from the spec: §4.3 high_cogs_menus — sort descending by
average cogs_pct, ties by menu name ascending, top n. -/
def get_high_cogs_menus (d : List Row) (n : Nat) : List MenuStats :=
  (sortBy cogsPctDesc (menu_stats d)).take n

/-- Modelled from the spec: §4.3 low_cogs_menus — ascending by average
cogs_pct. -/
def get_low_cogs_menus (d : List Row) (n : Nat) : List MenuStats :=
  (sortBy cogsPctAsc (menu_stats d)).take n

/-- Modelled from the spec: §4.3 daily_sales_trend — one (date, summed
revenue) point per date present, chronological. -/
def get_daily_sales_trend (d : List Row) : List (Nat × ℚ) :=
  (sortBy natLe (uniqueKeys (d.map (fun r => r.salesDate)))).map
    (fun t => (t, sumTotal (d.filter (fun r => r.salesDate == t))))

/-- Modelled from the spec: §4.3 hourly_sales_pattern — all 24 hours
represented, 0 for hours with no transactions. -/
def get_hourly_sales_pattern (d : List Row) : List (Nat × ℚ) :=
  (List.range 24).map (fun h => (h, sumTotal (d.filter (fun r => r.hour == h))))

def dayName : Nat → String
  | 0 => "Monday"
  | 1 => "Tuesday"
  | 2 => "Wednesday"
  | 3 => "Thursday"
  | 4 => "Friday"
  | 5 => "Saturday"
  | _ => "Sunday"

/-- Modelled from the spec: §4.3 daily_sales_pattern — mean total_revenue
per day name across the calendar dates observed, ordered Monday to Sunday
regardless of which days appear; 0 (the empty guard) where none do. -/
def get_daily_sales_pattern (d : List Row) : List (String × ℚ) :=
  (List.range 7).map (fun w =>
    let rows := d.filter (fun r => r.salesDate % 7 == w)
    (dayName w,
      safeDiv (sumTotal rows) (((uniqueKeys (rows.map (fun r => r.salesDate))).length : ℚ))))

/-- Modelled from the spec: §4.3 weekly_trend — summed revenue per week
key, chronological. -/
def get_weekly_trend (d : List Row) : List (Nat × ℚ) :=
  (sortBy natLe (uniqueKeys (d.map (fun r => r.salesDate / 7)))).map
    (fun w => (w, sumTotal (d.filter (fun r => r.salesDate / 7 == w))))

/-- Modelled from the spec: §4.3 sales_heatmap — 7 rows (Monday to
Sunday) of 24 hourly cells of summed revenue, zero where absent. -/
def get_sales_heatmap_data (d : List Row) : List (List ℚ) :=
  (List.range 7).map (fun w =>
    (List.range 24).map (fun h =>
      sumTotal (d.filter (fun r => r.salesDate % 7 == w && r.hour == h))))

/-- Modelled from the spec: §4.3 cogs_trend — per date, summed COGS and
summed revenue, chronological. -/
def get_cogs_trend (d : List Row) : List (Nat × ℚ × ℚ) :=
  (sortBy natLe (uniqueKeys (d.map (fun r => r.salesDate)))).map
    (fun t => (t,
      sumCogs (d.filter (fun r => r.salesDate == t)),
      sumTotal (d.filter (fun r => r.salesDate == t))))

/-- Modelled from the spec: §4.3 cogs_efficiency
(calculate_cogs_efficiency of data_analyzer.py, code not among the
repository files; called on the filtered data at app.py line 550 and
pdf_exporter.py line 401): 100 minus the average cogs_pct of the rows,
clamped to [0, 100]; the average carries the §7 zero guard, so on an
empty dataset it is 0 and the efficiency degenerates to the clamped
scalar 100. -/
def calculate_cogs_efficiency (d : List Row) : ℚ :=
  let avg := safeDiv ((d.map (fun r => r.cogsPct)).sum) ((d.length : ℚ))
  min 100 (max 0 (100 - avg))

/-- Modelled from the spec: the analyzer rule of §4.3
cogs_optimization_recommendations that lives in data_analyzer.py (code not
among the repository files): if the average cogs_pct across the high-COGS
menus exceeds the 30 threshold, one reduce-COGS recommendation naming the
worst offenders with potential_saving = 5 percent of their combined
revenue. The §4.3 rules on concentration, bottom quintile and high-margin
low-volume menus are the ones of generate_business_recommendations below,
taken from pdf_exporter.py itself. -/
def get_cogs_optimization_recommendations (d : List Row) : List Recommendation :=
  let hc := get_high_cogs_menus d 10
  let avg := safeDiv ((hc.map (fun m => m.avgCogsPct)).sum) ((hc.length : ℚ))
  let sep := ", "
  if 30 < avg then
    [{ title := "Reduksi COGS Menu Prioritas"
       description := "Menu dengan COGS tertinggi: " ++ String.intercalate sep (hc.map (fun m => m.menu))
       potential_saving := "Rp " ++ fmt0f (((hc.map (fun m => m.totalRevenue)).sum) * (5 / 100)) }]
  else []

def datePass (f : FilterSpec) (r : Row) : Bool :=
  decide (f.startDate ≤ r.salesDate) && decide (r.salesDate ≤ f.endDate)

def catPass (f : FilterSpec) (r : Row) : Bool := memB r.menuCategory f.categories

/-- The distinct branches of the dataset (analyzer get_unique_branches). -/
def branchList (d : List Row) : List String := uniqueKeys (d.map (fun r => r.branch))

/-- Modelled from the spec: apply_filters of data_analyzer.py (code not
among the repository files), per §4.2 and app.py lines 106-114: the date
range is inclusive, a row passes the category filter iff its category is
in the provided set, and the branch criterion is ignored when exactly one
distinct branch exists in the data (app.py only offers a branch choice
when there is more than one); the result is the subsequence of rows
passing all three. -/
def apply_filters (d : List Row) (f : FilterSpec) : List Row :=
  d.filter (fun r =>
    datePass f r && catPass f r &&
      (((branchList d).length == 1) || (r.branch == f.branch)))

/-- pdf_exporter.py line 501: data.groupby of Menu Category, summed Total
for one category. -/
def catSum (d : List Row) (c : String) : ℚ :=
  ((d.filter (fun r => r.menuCategory == c)).map (fun r => r.total)).sum

/-- The groupby keys in pandas key order (sorted ascending). -/
def sortedCats (d : List Row) : List String :=
  sortBy strLe (uniqueKeys (d.map (fun r => r.menuCategory)))

def categoryRevenue (d : List Row) : List (String × ℚ) :=
  (sortedCats d).map (fun c => (c, catSum d c))

/-- One step of Series.idxmax: keep the current best unless strictly
beaten, so the first occurrence of the maximum wins. -/
def idxmaxStep (best q : String × ℚ) : String × ℚ := if best.2 < q.2 then q else best

/-- pdf_exporter.py _get_top_category lines 499-504: idxmax of the summed
revenue per category, N/A when the grouped series is empty. -/
def get_top_category (d : List Row) : String :=
  match categoryRevenue d with
  | [] => "N/A"
  | p :: ps => (ps.foldl idxmaxStep p).1

/-- pdf_exporter.py lines 514-516: top_5_revenue / total_revenue * 100,
the revenue share of the first five rows of the menu analysis. -/
def top5Share (d : List Row) : Option ℚ :=
  (npDiv (((get_comprehensive_menu_analysis d).take 5).map (fun m => m.totalRevenue)).sum
    (sumTotal d)).map (fun v => v * 100)

/-- pdf_exporter.py lines 518-523: the concentration rule. -/
def diversifyRule (d : List Row) : List Recommendation :=
  if nanGT (top5Share d) 60 then
    [{ title := "Diversifikasi Menu Portfolio"
       description := optFmt1f (top5Share d) ++
         "% revenue berasal dari 5 menu teratas. Kembangkan menu lain untuk mengurangi risiko dependency."
       potential_saving := "Stabilitas revenue jangka panjang" }]
  else []

/-- pdf_exporter.py line 526: the menus whose total quantity is strictly
below the 0.2 quantile of the per-menu total quantities. -/
def lowPerformers (d : List Row) : List MenuStats :=
  let ma := get_comprehensive_menu_analysis d
  ma.filter (fun m => decide (m.totalQty < quantileLinear (ma.map (fun x => x.totalQty)) (1/5)))

/-- pdf_exporter.py lines 528-533: the low-performer rule. -/
def lowPerfRule (d : List Row) : List Recommendation :=
  if 0 < (lowPerformers d).length then
    [{ title := "Optimasi Menu Underperform"
       description := toString (lowPerformers d).length ++
         " menu memiliki penjualan rendah. Pertimbangkan redesign, repricing, atau discontinue."
       potential_saving := "Efisiensi operasional dan inventory" }]
  else []

/-- pdf_exporter.py lines 536-539: the menus whose margin percentage is
strictly above the 0.8 quantile and whose total quantity is strictly
below the median. -/
def highMarginLowVolume (d : List Row) : List MenuStats :=
  let ma := get_comprehensive_menu_analysis d
  ma.filter (fun m =>
    decide (quantileLinear (ma.map (fun x => x.marginPct)) (4/5) < m.marginPct) &&
      decide (m.totalQty < quantileLinear (ma.map (fun x => x.totalQty)) (1/2)))

/-- pdf_exporter.py lines 541-546: the high-margin low-volume rule, with
potential_saving twice the combined current margin of those menus. -/
def promoRule (d : List Row) : List Recommendation :=
  if 0 < (highMarginLowVolume d).length then
    [{ title := "Marketing Focus Menu High-Margin"
       description := toString (highMarginLowVolume d).length ++
         " menu memiliki margin tinggi tapi volume rendah. Tingkatkan visibility dan promosi."
       potential_saving := "Potensi peningkatan margin Rp " ++
         fmt0f ((((highMarginLowVolume d).map (fun m => m.totalMargin)).sum) * 2) }]
  else []

/-- pdf_exporter.py _generate_business_recommendations lines 506-548: the
three appends, in source order. -/
def generate_business_recommendations (d : List Row) : List Recommendation :=
  diversifyRule d ++ lowPerfRule d ++ promoRule d

/-- pdf_exporter.py line 462: the analyzer recommendations followed by the
general business recommendations, the combined list the report renders. -/
def allRecommendations (d : List Row) : List Recommendation :=
  get_cogs_optimization_recommendations d ++ generate_business_recommendations d

/-- The Python dict a Recommendation stands for, as its key-value list. -/
def recToDict (r : Recommendation) : List (String × String) :=
  [("title", r.title), ("description", r.description), ("potential_saving", r.potential_saving)]

/-- A two-row, two-menu dataset used to instantiate the theorems: menu A
sells 10 units of revenue 200 with margin 20 (margin percentage 10, COGS
percentage 90), menu B sells 1 unit of revenue 100 with margin 90 (margin
percentage 90, COGS percentage 10). -/
def sample1 : List Row :=
  [{ menu := "A", menuCategory := "Food", branch := "Pusat", salesDate := 0, hour := 10,
     qty := 10, price := 20, total := 200, cogsTotal := 180, cogsPct := 90, margin := 20 },
   { menu := "B", menuCategory := "Food", branch := "Pusat", salesDate := 1, hour := 12,
     qty := 1, price := 100, total := 100, cogsTotal := 10, cogsPct := 10, margin := 90 }]

/-- A dataset with a single distinct branch. -/
def sampleOneBranch : List Row :=
  [{ menu := "A", menuCategory := "Food", branch := "Pusat", salesDate := 0, hour := 9,
     qty := 2, price := 10, total := 20, cogsTotal := 5, cogsPct := 25, margin := 15 },
   { menu := "B", menuCategory := "Drink", branch := "Pusat", salesDate := 3, hour := 11,
     qty := 1, price := 8, total := 8, cogsTotal := 2, cogsPct := 25, margin := 6 }]

/-- A dataset with two distinct branches. -/
def sampleTwoBranches : List Row :=
  [{ menu := "A", menuCategory := "Food", branch := "Pusat", salesDate := 0, hour := 9,
     qty := 2, price := 10, total := 20, cogsTotal := 5, cogsPct := 25, margin := 15 },
   { menu := "B", menuCategory := "Food", branch := "Cabang", salesDate := 1, hour := 10,
     qty := 1, price := 8, total := 8, cogsTotal := 2, cogsPct := 25, margin := 6 }]

/-- A filter specification used to instantiate the filter theorems. -/
def fspec1 : FilterSpec :=
  { startDate := 0, endDate := 2, categories := ["Food", "Drink"], branch := "Pusat" }

lemma memB_iff {α : Type} [BEq α] [LawfulBEq α] (x : α) (l : List α) :
    memB x l = true ↔ x ∈ l := by
  induction l with
  | nil => simp [memB]
  | cons y ys ih =>
    simp [memB, ih, Bool.or_eq_true, beq_iff_eq]
    constructor
    · rintro (h | h)
      · exact Or.inl h.symm
      · exact Or.inr h
    · rintro (h | h)
      · exact Or.inl h.symm
      · exact Or.inr h

lemma mem_uniqueAux {α : Type} [BEq α] [LawfulBEq α] (x : α) :
    ∀ (l seen : List α), x ∈ uniqueAux l seen ↔ x ∈ l ∧ memB x seen = false := by
  intro l
  induction l with
  | nil => intro seen; simp [uniqueAux]
  | cons y ys ih =>
    intro seen
    by_cases hy : memB y seen = true
    · rw [uniqueAux, if_pos hy, ih]
      constructor
      · rintro ⟨h1, h2⟩
        exact ⟨List.mem_cons_of_mem _ h1, h2⟩
      · rintro ⟨h1, h2⟩
        rcases List.mem_cons.mp h1 with h | h
        · subst h; rw [hy] at h2; cases h2
        · exact ⟨h, h2⟩
    · rw [uniqueAux, if_neg hy]
      have hyf : memB y seen = false := Bool.eq_false_iff.mpr hy
      constructor
      · intro h
        rcases List.mem_cons.mp h with h | h
        · subst h; exact ⟨List.mem_cons_self _ _, hyf⟩
        · rcases (ih (y :: seen)).mp h with ⟨h1, h2⟩
          rw [memB] at h2
          rcases Bool.or_eq_false_iff.mp h2 with ⟨_, h4⟩
          exact ⟨List.mem_cons_of_mem _ h1, h4⟩
      · rintro ⟨h1, h2⟩
        rcases List.mem_cons.mp h1 with h | h
        · subst h; exact List.mem_cons_self _ _
        · by_cases hxy : y = x
          · subst hxy; exact List.mem_cons_self _ _
          · refine List.mem_cons_of_mem _ ((ih (y :: seen)).mpr ⟨h, ?_⟩)
            rw [memB, Bool.or_eq_false_iff]
            exact ⟨beq_eq_false_iff_ne.mpr hxy, h2⟩

lemma mem_uniqueKeys {α : Type} [BEq α] [LawfulBEq α] (x : α) (l : List α) :
    x ∈ uniqueKeys l ↔ x ∈ l := by
  rw [uniqueKeys, mem_uniqueAux]
  simp [memB]

lemma uniqueAux_eq_nil {α : Type} [BEq α] [LawfulBEq α] :
    ∀ (l seen : List α), (∀ x ∈ l, memB x seen = true) → uniqueAux l seen = [] := by
  intro l
  induction l with
  | nil => intro seen _; rfl
  | cons y ys ih =>
    intro seen h
    rw [uniqueAux, if_pos (h y (List.mem_cons_self _ _))]
    exact ih seen (fun x hx => h x (List.mem_cons_of_mem _ hx))

lemma uniqueKeys_const {α : Type} [BEq α] [LawfulBEq α] (l : List α) (a : α)
    (hne : l ≠ []) (hall : ∀ x ∈ l, x = a) : uniqueKeys l = [a] := by
  cases l with
  | nil => exact absurd rfl hne
  | cons y ys =>
    have hy : y = a := hall y (List.mem_cons_self _ _)
    subst hy
    rw [uniqueKeys, uniqueAux, if_neg (by simp [memB])]
    congr 1
    apply uniqueAux_eq_nil
    intro x hx
    have : x = y := hall x (List.mem_cons_of_mem _ hx)
    subst this
    simp [memB]

lemma mem_insertBy {α : Type} (le : α → α → Bool) (x a : α) :
    ∀ l : List α, a ∈ insertBy le x l ↔ a = x ∨ a ∈ l := by
  intro l
  induction l with
  | nil => simp [insertBy]
  | cons y ys ih =>
    rw [insertBy]
    by_cases h : le x y = true
    · rw [if_pos h]
      simp [List.mem_cons]
    · rw [if_neg h]
      simp only [List.mem_cons, ih]
      constructor
      · rintro (h1 | h1 | h1)
        · exact Or.inr (Or.inl h1)
        · exact Or.inl h1
        · exact Or.inr (Or.inr h1)
      · rintro (h1 | h1 | h1)
        · exact Or.inr (Or.inl h1)
        · exact Or.inl h1
        · exact Or.inr (Or.inr h1)

lemma mem_sortBy {α : Type} (le : α → α → Bool) (a : α) :
    ∀ l : List α, a ∈ sortBy le l ↔ a ∈ l := by
  intro l
  induction l with
  | nil => simp [sortBy]
  | cons y ys ih =>
    rw [sortBy, mem_insertBy]
    simp [ih, List.mem_cons]

lemma sortBy_ne_nil {α : Type} (le : α → α → Bool) (l : List α) (h : l ≠ []) :
    sortBy le l ≠ [] := by
  cases l with
  | nil => exact absurd rfl h
  | cons y ys =>
    intro hc
    have : y ∈ sortBy le (y :: ys) := (mem_sortBy le y _).mpr (List.mem_cons_self _ _)
    rw [hc] at this
    cases this

lemma foldl_idxmax_spec :
    ∀ (ps : List (String × ℚ)) (p : String × ℚ),
      ps.foldl idxmaxStep p ∈ p :: ps ∧ ∀ q ∈ p :: ps, q.2 ≤ (ps.foldl idxmaxStep p).2 := by
  intro ps
  induction ps with
  | nil =>
    intro p
    constructor
    · exact List.mem_cons_self _ _
    · intro q hq
      rcases List.mem_cons.mp hq with h | h
      · subst h; exact le_refl _
      · cases h
  | cons a as ih =>
    intro p
    have hfold : (a :: as).foldl idxmaxStep p = as.foldl idxmaxStep (idxmaxStep p a) := rfl
    obtain ⟨hmem, hmax⟩ := ih (idxmaxStep p a)
    have hstep_mem : idxmaxStep p a = a ∨ idxmaxStep p a = p := by
      rw [idxmaxStep]
      by_cases h : p.2 < a.2
      · exact Or.inl (if_pos h)
      · exact Or.inr (if_neg h)
    have hp_le : p.2 ≤ (idxmaxStep p a).2 := by
      rw [idxmaxStep]
      by_cases h : p.2 < a.2
      · rw [if_pos h]; exact le_of_lt h
      · rw [if_neg h]
    have ha_le : a.2 ≤ (idxmaxStep p a).2 := by
      rw [idxmaxStep]
      by_cases h : p.2 < a.2
      · rw [if_pos h]
      · rw [if_neg h]; exact le_of_not_lt h
    constructor
    · rw [hfold]
      rcases List.mem_cons.mp hmem with h | h
      · rw [h]
        rcases hstep_mem with h2 | h2 <;> rw [h2]
        · exact List.mem_cons_of_mem _ (List.mem_cons_self _ _)
        · exact List.mem_cons_self _ _
      · exact List.mem_cons_of_mem _ (List.mem_cons_of_mem _ h)
    · intro q hq
      rw [hfold]
      rcases List.mem_cons.mp hq with h | h
      · subst h
        exact le_trans hp_le (hmax _ (List.mem_cons_self _ _))
      · rcases List.mem_cons.mp h with h2 | h2
        · subst h2
          exact le_trans ha_le (hmax _ (List.mem_cons_self _ _))
        · exact hmax _ (List.mem_cons_of_mem _ h2)

lemma diversifyRule_titles (d : List Row) :
    ∀ r ∈ diversifyRule d, r.title = "Diversifikasi Menu Portfolio" := by
  intro r hr
  rw [diversifyRule] at hr
  split at hr
  · rcases List.mem_cons.mp hr with h | h
    · subst h; rfl
    · cases h
  · cases hr

lemma lowPerfRule_titles (d : List Row) :
    ∀ r ∈ lowPerfRule d, r.title = "Optimasi Menu Underperform" := by
  intro r hr
  rw [lowPerfRule] at hr
  split at hr
  · rcases List.mem_cons.mp hr with h | h
    · subst h; rfl
    · cases h
  · cases hr

lemma promoRule_titles (d : List Row) :
    ∀ r ∈ promoRule d, r.title = "Marketing Focus Menu High-Margin" := by
  intro r hr
  rw [promoRule] at hr
  split at hr
  · rcases List.mem_cons.mp hr with h | h
    · subst h; rfl
    · cases h
  · cases hr

lemma filter_title_nil (l : List Recommendation) (t s : String)
    (hall : ∀ r ∈ l, r.title = t) (hne : ¬ t = s) :
    l.filter (fun r => r.title == s) = [] := by
  induction l with
  | nil => rfl
  | cons a as ih =>
    rw [List.filter_cons]
    have ha : a.title = t := hall a (List.mem_cons_self _ _)
    rw [ha]
    rw [if_neg (by simp [hne])]
    exact ih (fun r hr => hall r (List.mem_cons_of_mem _ hr))

lemma diversifyRule_len (d : List Row) : (diversifyRule d).length ≤ 1 := by
  rw [diversifyRule]
  split <;> simp

lemma lowPerfRule_len (d : List Row) : (lowPerfRule d).length ≤ 1 := by
  rw [lowPerfRule]
  split <;> simp

lemma promoRule_len (d : List Row) : (promoRule d).length ≤ 1 := by
  rw [promoRule]
  split <;> simp

lemma cogsOptRule_len (d : List Row) : (get_cogs_optimization_recommendations d).length ≤ 1 := by
  rw [get_cogs_optimization_recommendations]
  split <;> simp

/-- C1 counterexample: on the empty filtered dataset (total revenue 0) the
PDF exporter's gross margin percentage is the NaN outcome (none), not the
sentinel 0, and so is its average COGS percentage; the claimed sentinel
behaviour fails at this input. -/
theorem C1_counterexample :
    pdf_gross_margin_pct [] = none ∧ ¬ pdf_gross_margin_pct [] = some 0 ∧
      pdf_avg_cogs_pct [] = none := by
  refine ⟨?_, ?_, rfl⟩
  · simp [pdf_gross_margin_pct, npDiv, sumTotal, sumMargin]
  · simp [pdf_gross_margin_pct, npDiv, sumTotal, sumMargin]

/-- C1 (amended): app.py display_overview guards its margin percentage and
returns the sentinel 0 whenever total revenue is not positive; the PDF
exporter's gross margin percentage (title page and executive summary) and
average COGS percentage are unguarded and evaluate to NaN (none) on zero
total revenue / an empty dataset — no exception is raised under numpy
semantics, but the result is not the 0 / N-A sentinel. -/
theorem C1_division_guards (d : List Row) :
    (¬ 0 < sumTotal d → display_overview_margin_pct d = 0) ∧
    (sumTotal d = 0 → pdf_gross_margin_pct d = none) ∧
    (d = [] → pdf_avg_cogs_pct d = none) := by
  refine ⟨fun h => ?_, fun h => ?_, fun h => ?_⟩
  · rw [display_overview_margin_pct, if_neg h]
  · rw [pdf_gross_margin_pct, npDiv, if_pos h]; rfl
  · subst h; rfl

/-- C1 witness: the guards evaluated on the empty dataset. -/
theorem C1_division_guards_witness :
    display_overview_margin_pct [] = 0 ∧ pdf_gross_margin_pct [] = none ∧
      pdf_avg_cogs_pct [] = none :=
  ⟨(C1_division_guards []).1 (by norm_num [sumTotal]),
   (C1_division_guards []).2.1 (by norm_num [sumTotal]),
   (C1_division_guards []).2.2 rfl⟩

/-- C5 counterexample: the COGS efficiency score, an Aggregation Library
function of §4.3, called on the empty dataset returns the clamped scalar
100 (100 minus the guarded empty average 0) — a well-formed in-range value
and no error, but not an empty, zero-valued or N/A result, refuting the
claim as stated at this input. -/
theorem C5_cogs_efficiency_counterexample :
    calculate_cogs_efficiency [] = 100 ∧ ¬ calculate_cogs_efficiency [] = 0 := by
  constructor
  · norm_num [calculate_cogs_efficiency, safeDiv]
  · norm_num [calculate_cogs_efficiency, safeDiv]

/-- C5 (amended): every aggregation function called on the empty dataset
returns without error a well-formed result — empty lists for the rankings,
trends and recommendations, all-zero series for the fixed-shape hourly,
weekday and heatmap outputs, the N/A sentinel for the top category — with
the one exception that the COGS efficiency score, whose empty average is
guarded to 0, returns the clamped scalar 100 rather than an empty or
zero-valued result. -/
theorem C5_empty_input_safe (n : Nat) :
    get_top_performing_menus [] n = [] ∧
    get_most_profitable_menus [] n = [] ∧
    get_high_cogs_menus [] n = [] ∧
    get_low_cogs_menus [] n = [] ∧
    get_comprehensive_menu_analysis [] = [] ∧
    get_daily_sales_trend [] = [] ∧
    get_weekly_trend [] = [] ∧
    get_cogs_trend [] = [] ∧
    get_hourly_sales_pattern [] = (List.range 24).map (fun h => (h, (0 : ℚ))) ∧
    get_daily_sales_pattern [] = (List.range 7).map (fun w => (dayName w, (0 : ℚ))) ∧
    get_sales_heatmap_data [] = (List.range 7).map (fun _ => (List.range 24).map (fun _ => (0 : ℚ))) ∧
    get_cogs_optimization_recommendations [] = [] ∧
    generate_business_recommendations [] = [] ∧
    calculate_cogs_efficiency [] = 100 ∧
    get_top_category [] = "N/A" := by
  refine ⟨?_, ?_, ?_, ?_, ?_, ?_, ?_, ?_, ?_, ?_, ?_, ?_, ?_, ?_, rfl⟩
  · simp [get_top_performing_menus, menu_stats, uniqueKeys, uniqueAux, sortBy]
  · simp [get_most_profitable_menus, menu_stats, uniqueKeys, uniqueAux, sortBy]
  · simp [get_high_cogs_menus, menu_stats, uniqueKeys, uniqueAux, sortBy]
  · simp [get_low_cogs_menus, menu_stats, uniqueKeys, uniqueAux, sortBy]
  · simp [get_comprehensive_menu_analysis, menu_stats, uniqueKeys, uniqueAux, sortBy]
  · simp [get_daily_sales_trend, uniqueKeys, uniqueAux, sortBy]
  · simp [get_weekly_trend, uniqueKeys, uniqueAux, sortBy]
  · simp [get_cogs_trend, uniqueKeys, uniqueAux, sortBy]
  · simp [get_hourly_sales_pattern, sumTotal]
  · simp [get_daily_sales_pattern, sumTotal, safeDiv, uniqueKeys, uniqueAux]
  · simp [get_sales_heatmap_data, sumTotal]
  · norm_num [get_cogs_optimization_recommendations, get_high_cogs_menus, menu_stats,
      uniqueKeys, uniqueAux, sortBy, safeDiv]
  · norm_num [generate_business_recommendations, diversifyRule, lowPerfRule, promoRule,
      lowPerformers, highMarginLowVolume, top5Share, nanGT, npDiv, sumTotal,
      get_comprehensive_menu_analysis, menu_stats, uniqueKeys, uniqueAux, sortBy]
  · norm_num [calculate_cogs_efficiency, safeDiv]

/-- C6: the branch criterion of the filter — when exactly one distinct
branch exists in the data the branch parameter is ignored and every row is
judged on date and category alone; when more than one exists, a row must
also carry the selected branch. -/
theorem C6_branch_filter (d : List Row) (f : FilterSpec) :
    ((branchList d).length = 1 →
      apply_filters d f = d.filter (fun r => datePass f r && catPass f r)) ∧
    (1 < (branchList d).length →
      apply_filters d f
        = d.filter (fun r => datePass f r && catPass f r && (r.branch == f.branch))) := by
  constructor
  · intro h
    simp [apply_filters, h]
  · intro h
    have hne : (branchList d).length ≠ 1 := by omega
    have hf : ((branchList d).length == 1) = false := beq_eq_false_iff_ne.mpr hne
    simp [apply_filters, hf]

/-- C6 witness: the two branch regimes at concrete datasets — one branch
(parameter ignored) and two branches (branch equality enforced). -/
theorem C6_branch_filter_witness :
    apply_filters sampleOneBranch fspec1
        = sampleOneBranch.filter (fun r => datePass fspec1 r && catPass fspec1 r) ∧
      apply_filters sampleTwoBranches fspec1
        = sampleTwoBranches.filter
            (fun r => datePass fspec1 r && catPass fspec1 r && (r.branch == fspec1.branch)) :=
  ⟨(C6_branch_filter sampleOneBranch fspec1).1 (by decide),
   (C6_branch_filter sampleTwoBranches fspec1).2 (by decide)⟩

/-- C7: the combined recommendation output (analyzer rule engine plus the
report generator rules) is a finite list of at most four records, and
every record carries exactly the string fields title, description and
potential_saving. -/
theorem C7_record_shape (d : List Row) :
    (allRecommendations d).length ≤ 4 ∧
      ∀ r ∈ allRecommendations d,
        (recToDict r).map Prod.fst = ["title", "description", "potential_saving"] := by
  constructor
  · have h1 := cogsOptRule_len d
    have h2 := diversifyRule_len d
    have h3 := lowPerfRule_len d
    have h4 := promoRule_len d
    simp only [allRecommendations, generate_business_recommendations, List.length_append]
    omega
  · intro r _
    rfl

/-- C10: the report generator emits its three rules in order, each
contributing at most one recommendation, so the list has length at most
three. -/
theorem C10_at_most_three (d : List Row) :
    generate_business_recommendations d = diversifyRule d ++ lowPerfRule d ++ promoRule d ∧
      (diversifyRule d).length ≤ 1 ∧ (lowPerfRule d).length ≤ 1 ∧
      (promoRule d).length ≤ 1 ∧ (generate_business_recommendations d).length ≤ 3 := by
  refine ⟨rfl, diversifyRule_len d, lowPerfRule_len d, promoRule_len d, ?_⟩
  have h2 := diversifyRule_len d
  have h3 := lowPerfRule_len d
  have h4 := promoRule_len d
  simp only [generate_business_recommendations, List.length_append]
  omega

/-- C2: whenever the top-5 menus by revenue hold strictly more than 60
percent of total revenue (the Boolean condition of pdf_exporter.py line
518 under NaN semantics), exactly one diversify-portfolio recommendation
is emitted and its potential_saving is the qualitative benefit, a string
with no digit in it; at 60 percent or less (or undefined share) none is
emitted. -/
theorem C2_diversify_rule (d : List Row) :
    (nanGT (top5Share d) 60 = true →
      ((generate_business_recommendations d).filter
          (fun r => r.title == "Diversifikasi Menu Portfolio")).length = 1 ∧
        ∀ r ∈ (generate_business_recommendations d).filter
            (fun r => r.title == "Diversifikasi Menu Portfolio"),
          r.potential_saving = "Stabilitas revenue jangka panjang" ∧
            hasDigit r.potential_saving = false) ∧
    (nanGT (top5Share d) 60 = false →
      ((generate_business_recommendations d).filter
          (fun r => r.title == "Diversifikasi Menu Portfolio")).length = 0) := by
  have hlow : (lowPerfRule d).filter (fun r => r.title == "Diversifikasi Menu Portfolio") = [] :=
    filter_title_nil _ _ _ (lowPerfRule_titles d) (by decide)
  have hpromo : (promoRule d).filter (fun r => r.title == "Diversifikasi Menu Portfolio") = [] :=
    filter_title_nil _ _ _ (promoRule_titles d) (by decide)
  constructor
  · intro h
    have hdiv : diversifyRule d =
        [{ title := "Diversifikasi Menu Portfolio"
           description := optFmt1f (top5Share d) ++
             "% revenue berasal dari 5 menu teratas. Kembangkan menu lain untuk mengurangi risiko dependency."
           potential_saving := "Stabilitas revenue jangka panjang" }] := by
      rw [diversifyRule, if_pos h]
    rw [generate_business_recommendations, List.filter_append, List.filter_append,
      hdiv, hlow, hpromo]
    constructor
    · simp
    · intro r hr
      simp at hr
      rw [hr]
      refine ⟨rfl, ?_⟩
      show hasDigit ("Stabilitas revenue jangka panjang") = false
      decide
  · intro h
    have hdiv : diversifyRule d = [] := by
      rw [diversifyRule, if_neg (by simp [h])]
    rw [generate_business_recommendations, List.filter_append, List.filter_append,
      hdiv, hlow, hpromo]
    rfl

/-- C2 witness: on sample1 the two menus hold all revenue (share 100), so
exactly one diversify recommendation appears; on the empty dataset the
share is NaN and none appears. -/
theorem C2_diversify_rule_witness :
    ((generate_business_recommendations sample1).filter
        (fun r => r.title == "Diversifikasi Menu Portfolio")).length = 1 ∧
      ((generate_business_recommendations []).filter
        (fun r => r.title == "Diversifikasi Menu Portfolio")).length = 0 :=
  ⟨((C2_diversify_rule sample1).1 (by
      simp [nanGT, top5Share, npDiv, get_comprehensive_menu_analysis, menu_stats,
        sample1, uniqueKeys, uniqueAux, memB, sortBy, insertBy, revenueDesc, menu_stats_of,
        List.filter_cons, sumTotal, safeDiv]
      norm_num)).1,
   (C2_diversify_rule []).2 (by
      simp [nanGT, top5Share, npDiv, get_comprehensive_menu_analysis, menu_stats,
        uniqueKeys, uniqueAux, sortBy, sumTotal])⟩

/-- C3: if at least one menu has margin percentage strictly above the 0.8
quantile and total quantity strictly below the median, exactly the
promote-high-margin recommendation is emitted, its potential_saving being
the fixed multiple two of the combined current margin of exactly those
menus; with no such menu, none is emitted. -/
theorem C3_promote_rule (d : List Row) :
    (highMarginLowVolume d ≠ [] →
      (generate_business_recommendations d).filter
          (fun r => r.title == "Marketing Focus Menu High-Margin")
        = [{ title := "Marketing Focus Menu High-Margin"
             description := toString (highMarginLowVolume d).length ++
               " menu memiliki margin tinggi tapi volume rendah. Tingkatkan visibility dan promosi."
             potential_saving := "Potensi peningkatan margin Rp " ++
               fmt0f ((((highMarginLowVolume d).map (fun m => m.totalMargin)).sum) * 2) }]) ∧
    (highMarginLowVolume d = [] →
      (generate_business_recommendations d).filter
          (fun r => r.title == "Marketing Focus Menu High-Margin") = []) := by
  have hdiv : (diversifyRule d).filter (fun r => r.title == "Marketing Focus Menu High-Margin") = [] :=
    filter_title_nil _ _ _ (diversifyRule_titles d) (by decide)
  have hlow : (lowPerfRule d).filter (fun r => r.title == "Marketing Focus Menu High-Margin") = [] :=
    filter_title_nil _ _ _ (lowPerfRule_titles d) (by decide)
  constructor
  · intro h
    have hp : promoRule d =
        [{ title := "Marketing Focus Menu High-Margin"
           description := toString (highMarginLowVolume d).length ++
             " menu memiliki margin tinggi tapi volume rendah. Tingkatkan visibility dan promosi."
           potential_saving := "Potensi peningkatan margin Rp " ++
             fmt0f ((((highMarginLowVolume d).map (fun m => m.totalMargin)).sum) * 2) }] := by
      rw [promoRule, if_pos (List.length_pos.mpr h)]
    rw [generate_business_recommendations, List.filter_append, List.filter_append,
      hdiv, hlow, hp]
    simp
  · intro h
    have hp : promoRule d = [] := by
      rw [promoRule, if_neg (by simp [h])]
    rw [generate_business_recommendations, List.filter_append, List.filter_append,
      hdiv, hlow, hp]
    rfl

/-- C3 witness: on sample1 menu B (margin percentage 90, above the 0.8
quantile 74; quantity 1, below the median 5.5) qualifies, so the rule
fires with the doubled combined margin. -/
theorem C3_promote_rule_witness :
    (generate_business_recommendations sample1).filter
        (fun r => r.title == "Marketing Focus Menu High-Margin")
      = [{ title := "Marketing Focus Menu High-Margin"
           description := toString (highMarginLowVolume sample1).length ++
             " menu memiliki margin tinggi tapi volume rendah. Tingkatkan visibility dan promosi."
           potential_saving := "Potensi peningkatan margin Rp " ++
             fmt0f ((((highMarginLowVolume sample1).map (fun m => m.totalMargin)).sum) * 2) }] :=
  (C3_promote_rule sample1).1 (by
    simp [highMarginLowVolume, get_comprehensive_menu_analysis, menu_stats,
      sample1, uniqueKeys, uniqueAux, memB, sortBy, insertBy, revenueDesc, menu_stats_of,
      List.filter_cons, quantileLinear, nthQ, safeDiv]
    norm_num [nthQ])

/-- C4: if the set of menus strictly below the 0.2 quantile of total
quantity is non-empty, exactly the optimize-underperformers
recommendation is emitted, its description sized by the count of those
menus; with an empty set, none is emitted. -/
theorem C4_low_performer_rule (d : List Row) :
    (lowPerformers d ≠ [] →
      (generate_business_recommendations d).filter
          (fun r => r.title == "Optimasi Menu Underperform")
        = [{ title := "Optimasi Menu Underperform"
             description := toString (lowPerformers d).length ++
               " menu memiliki penjualan rendah. Pertimbangkan redesign, repricing, atau discontinue."
             potential_saving := "Efisiensi operasional dan inventory" }]) ∧
    (lowPerformers d = [] →
      (generate_business_recommendations d).filter
          (fun r => r.title == "Optimasi Menu Underperform") = []) := by
  have hdiv : (diversifyRule d).filter (fun r => r.title == "Optimasi Menu Underperform") = [] :=
    filter_title_nil _ _ _ (diversifyRule_titles d) (by decide)
  have hpromo : (promoRule d).filter (fun r => r.title == "Optimasi Menu Underperform") = [] :=
    filter_title_nil _ _ _ (promoRule_titles d) (by decide)
  constructor
  · intro h
    have hl : lowPerfRule d =
        [{ title := "Optimasi Menu Underperform"
           description := toString (lowPerformers d).length ++
             " menu memiliki penjualan rendah. Pertimbangkan redesign, repricing, atau discontinue."
           potential_saving := "Efisiensi operasional dan inventory" }] := by
      rw [lowPerfRule, if_pos (List.length_pos.mpr h)]
    rw [generate_business_recommendations, List.filter_append, List.filter_append,
      hdiv, hl, hpromo]
    simp
  · intro h
    have hl : lowPerfRule d = [] := by
      rw [lowPerfRule, if_neg (by simp [h])]
    rw [generate_business_recommendations, List.filter_append, List.filter_append,
      hdiv, hl, hpromo]
    rfl

/-- C4 witness: on sample1 the 0.2 quantile of the quantities 1 and 10 is
2.8, menu B (quantity 1) falls below it, and the rule fires sized by that
one menu. -/
theorem C4_low_performer_rule_witness :
    (generate_business_recommendations sample1).filter
        (fun r => r.title == "Optimasi Menu Underperform")
      = [{ title := "Optimasi Menu Underperform"
           description := toString (lowPerformers sample1).length ++
             " menu memiliki penjualan rendah. Pertimbangkan redesign, repricing, atau discontinue."
           potential_saving := "Efisiensi operasional dan inventory" }] :=
  (C4_low_performer_rule sample1).1 (by
    simp [lowPerformers, get_comprehensive_menu_analysis, menu_stats,
      sample1, uniqueKeys, uniqueAux, memB, sortBy, insertBy, revenueDesc, menu_stats_of,
      List.filter_cons, quantileLinear, nthQ, safeDiv]
    norm_num [nthQ, List.filter_cons])

/-- C7 witness: a concrete recommendation of the combined list on sample1
— the low-performer record — carries exactly the three string keys. -/
theorem C7_record_shape_witness :
    ({ title := "Optimasi Menu Underperform"
       description := toString (lowPerformers sample1).length ++
         " menu memiliki penjualan rendah. Pertimbangkan redesign, repricing, atau discontinue."
       potential_saving := "Efisiensi operasional dan inventory" } : Recommendation)
        ∈ allRecommendations sample1 ∧
      (recToDict { title := "Optimasi Menu Underperform"
                   description := toString (lowPerformers sample1).length ++
                     " menu memiliki penjualan rendah. Pertimbangkan redesign, repricing, atau discontinue."
                   potential_saving := "Efisiensi operasional dan inventory" }).map Prod.fst
        = ["title", "description", "potential_saving"] := by
  have hpos : 0 < (lowPerformers sample1).length := by
    simp [lowPerformers, get_comprehensive_menu_analysis, menu_stats,
      sample1, uniqueKeys, uniqueAux, memB, sortBy, insertBy, revenueDesc, menu_stats_of,
      List.filter_cons, quantileLinear, nthQ, safeDiv]
    norm_num [nthQ, List.filter_cons]
  have hl : lowPerfRule sample1 =
      [{ title := "Optimasi Menu Underperform"
         description := toString (lowPerformers sample1).length ++
           " menu memiliki penjualan rendah. Pertimbangkan redesign, repricing, atau discontinue."
         potential_saving := "Efisiensi operasional dan inventory" }] := by
    rw [lowPerfRule, if_pos hpos]
  have hmem : ({ title := "Optimasi Menu Underperform"
                 description := toString (lowPerformers sample1).length ++
                   " menu memiliki penjualan rendah. Pertimbangkan redesign, repricing, atau discontinue."
                 potential_saving := "Efisiensi operasional dan inventory" } : Recommendation)
      ∈ allRecommendations sample1 := by
    rw [allRecommendations, generate_business_recommendations]
    refine List.mem_append.mpr (Or.inr ?_)
    refine List.mem_append.mpr (Or.inl ?_)
    refine List.mem_append.mpr (Or.inr ?_)
    rw [hl]
    exact List.mem_cons_self _ _
  exact ⟨hmem, (C7_record_shape sample1).2 _ hmem⟩

/-- C8: filtering is idempotent — applying the same filter specification
to an already-filtered dataset changes nothing. The branch regime may
switch between the two passes (a branch-filtered result has at most one
distinct branch left, so the second pass ignores the branch parameter),
but every surviving row already passes the date and category criteria. -/
theorem C8_filter_idempotent (d : List Row) (f : FilterSpec) :
    apply_filters (apply_filters d f) f = apply_filters d f := by
  by_cases hnil : apply_filters d f = []
  · rw [hnil]
    rfl
  · have hpass : ∀ r ∈ apply_filters d f, (datePass f r && catPass f r) = true := by
      intro r hr
      rw [apply_filters, List.mem_filter, Bool.and_eq_true] at hr
      exact hr.2.1
    have hsub : ∀ r ∈ apply_filters d f, r ∈ d := by
      intro r hr
      rw [apply_filters, List.mem_filter] at hr
      exact hr.1
    have hbr : ∃ a, ∀ r ∈ apply_filters d f, r.branch = a := by
      cases hs : ((branchList d).length == 1) with
      | true =>
        have hlen : (branchList d).length = 1 := by simpa using hs
        obtain ⟨a, ha⟩ := List.length_eq_one.mp hlen
        refine ⟨a, fun r hr => ?_⟩
        have h1 : r.branch ∈ branchList d := by
          rw [branchList, mem_uniqueKeys]
          exact List.mem_map_of_mem _ (hsub r hr)
        rw [ha] at h1
        rcases List.mem_cons.mp h1 with h | h
        · exact h
        · cases h
      | false =>
        refine ⟨f.branch, fun r hr => ?_⟩
        rw [apply_filters, List.mem_filter, Bool.and_eq_true] at hr
        have h2 := hr.2.2
        rw [hs, Bool.false_or] at h2
        exact eq_of_beq h2
    obtain ⟨a, ha⟩ := hbr
    have hba : branchList (apply_filters d f) = [a] := by
      rw [branchList]
      apply uniqueKeys_const
      · intro hmap
        exact hnil (List.map_eq_nil_iff.mp hmap)
      · intro x hx
        obtain ⟨r, hr, hrx⟩ := List.mem_map.mp hx
        rw [← hrx]
        exact ha r hr
    have hform : apply_filters (apply_filters d f) f
        = (apply_filters d f).filter (fun r => datePass f r && catPass f r) := by
      conv_lhs => rw [apply_filters]
      rw [hba]
      simp
    rw [hform]
    exact List.filter_eq_self.mpr hpass

/-- C9: the top category is a maximiser of the summed Total revenue among
the categories present, and the N/A sentinel on an empty dataset, with no
failure on empty input. -/
theorem C9_top_category (d : List Row) :
    (d = [] → get_top_category d = "N/A") ∧
    (d ≠ [] →
      get_top_category d ∈ d.map (fun r => r.menuCategory) ∧
      ∀ c ∈ d.map (fun r => r.menuCategory),
        catSum d c ≤ catSum d (get_top_category d)) := by
  constructor
  · intro h; subst h; rfl
  · intro h
    have hne : sortedCats d ≠ [] := by
      rw [sortedCats]
      apply sortBy_ne_nil
      intro hu
      cases hd : d.map (fun r => r.menuCategory) with
      | nil => exact h (List.map_eq_nil_iff.mp hd)
      | cons c cs =>
        have hcmem : c ∈ uniqueKeys (d.map (fun r => r.menuCategory)) :=
          (mem_uniqueKeys _ _).mpr (by rw [hd]; exact List.mem_cons_self _ _)
        rw [hu] at hcmem
        cases hcmem
    have hcrne : categoryRevenue d ≠ [] := by
      rw [categoryRevenue]
      intro hm
      exact hne (List.map_eq_nil_iff.mp hm)
    cases hcr : categoryRevenue d with
    | nil => exact absurd hcr hcrne
    | cons p ps =>
      have hgtc : get_top_category d = (ps.foldl idxmaxStep p).1 := by
        rw [get_top_category, hcr]
      obtain ⟨hmem, hmax⟩ := foldl_idxmax_spec ps p
      rw [← hcr, categoryRevenue] at hmem
      obtain ⟨c, hc, hcp⟩ := List.mem_map.mp hmem
      have hc_mem : c ∈ d.map (fun r => r.menuCategory) := by
        rw [sortedCats, mem_sortBy, mem_uniqueKeys] at hc
        exact hc
      have hfst : (ps.foldl idxmaxStep p).1 = c := by rw [← hcp]
      have hsnd : (ps.foldl idxmaxStep p).2 = catSum d c := by rw [← hcp]
      constructor
      · rw [hgtc, hfst]
        exact hc_mem
      · intro c2 hc2
        have hc2s : c2 ∈ sortedCats d := by
          rw [sortedCats, mem_sortBy, mem_uniqueKeys]
          exact hc2
        have hpair : (c2, catSum d c2) ∈ categoryRevenue d := by
          rw [categoryRevenue]
          exact List.mem_map_of_mem _ hc2s
        rw [hcr] at hpair
        have hle := hmax _ hpair
        rw [hsnd] at hle
        rw [hgtc, hfst]
        exact hle

/-- C9 witness: on sample1 the single category Food is returned and
maximises the summed revenue. -/
theorem C9_top_category_witness :
    get_top_category sample1 ∈ sample1.map (fun r => r.menuCategory) ∧
      ∀ c ∈ sample1.map (fun r => r.menuCategory),
        catSum sample1 c ≤ catSum sample1 (get_top_category sample1) :=
  (C9_top_category sample1).2 (by decide)
